import Mathlib

/-!
Shallow embedding of the Intercom time-tracker server (`server.js`).

The server keeps two module-level JavaScript `Map`s:
  `timers`              — key `admin_id ++ "_" ++ conversation_id`, value: live timer object;
  `conversationHistory` — same key, value: array of stopped-session snapshots.
(The third map, `sessions`, is only ever read for its size by the health
endpoint, so it is not modelled.)

A JavaScript `Map` is insertion-ordered with unique keys; we embed it as an
association list: `get` finds the first matching key, `set` replaces in place
or appends, `delete` removes the key.  Timestamps are `Date.now()` values
(integer milliseconds); every handler's `Date.now()` reads are modelled by a
single caller-supplied `now : Int` parameter, following the spec's
timestamp-as-parameter convention.  JavaScript number division in the
analytics endpoint is modelled exactly in `ℚ` (the `0/0 = NaN` corner is
outside every claim and is represented as `0`).
-/

/-- The `status` field of a timer: the string values `"running"`, `"paused"`,
`"stopped"` used by the server. -/
inductive Status where
  | running
  | paused
  | stopped
deriving Repr, DecidableEq

/-- A timer object as created by the start logic (lines 126-134) and mutated
by pause / resume / stop.  `final_duration` and `end_time` are absent until
`stopTimer` sets them, hence `Option`. -/
structure Timer where
  admin_id : String
  conversation_id : String
  session_id : String
  start_time : Int
  total_elapsed : Int
  status : Status
  last_update : Int
  final_duration : Option Int := none
  end_time : Option Int := none
deriving Repr, DecidableEq

/-- JavaScript `Map.get`: first binding of the key, if any. -/
def mapGet {κ α : Type} [DecidableEq κ] (m : List (κ × α)) (k : κ) : Option α :=
  match m with
  | [] => none
  | kv :: rest => if kv.1 = k then some kv.2 else mapGet rest k

/-- JavaScript `Map.set`: replace the binding in place when the key exists
(`Map` keeps insertion order), otherwise append a new binding. -/
def mapSet {κ α : Type} [DecidableEq κ] (m : List (κ × α)) (k : κ) (v : α) : List (κ × α) :=
  match m with
  | [] => [(k, v)]
  | kv :: rest => if kv.1 = k then (k, v) :: rest else kv :: mapSet rest k v

/-- JavaScript `Map.delete`: remove the binding of the key.  A real `Map` has
unique keys, so removing every binding of the key is equivalent. -/
def mapDelete {κ α : Type} [DecidableEq κ] (m : List (κ × α)) (k : κ) : List (κ × α) :=
  match m with
  | [] => []
  | kv :: rest => if kv.1 = k then mapDelete rest k else kv :: mapDelete rest k

/-- The two stores of the server (value semantics; object identity is modelled
separately, see `RefState`). -/
structure ServerState where
  timers : List (String × Timer)
  conversationHistory : List (String × List Timer)
deriving Repr, DecidableEq

/-- The empty stores at process start. -/
def initState : ServerState := { timers := [], conversationHistory := [] }

/-- Line 120: the map key `admin_id ++ "_" ++ conversation_id` (template
literal with an underscore separator). -/
def timerKey (adminId conversationId : String) : String :=
  adminId ++ "_" ++ conversationId

/-- Start logic of the test endpoint, lines 120-144: create a fresh running
timer when the key is absent; resume (set running, refresh `last_update`) when
the existing timer is paused; otherwise change nothing.  The freshly minted
`crypto.randomUUID()` session id is a caller-supplied parameter. -/
def startTimer (st : ServerState) (adminId conversationId sessionId : String)
    (now : Int) : ServerState :=
  let key := timerKey adminId conversationId
  match mapGet st.timers key with
  | none =>
      let t : Timer :=
        { admin_id := adminId
          conversation_id := conversationId
          session_id := sessionId
          start_time := now
          total_elapsed := 0
          status := .running
          last_update := now }
      { st with timers := mapSet st.timers key t }
  | some t =>
      if t.status = .paused then
        let t2 : Timer := { t with status := .running, last_update := now }
        { st with timers := mapSet st.timers key t2 }
      else st

/-- The pause endpoint, lines 250-262: when the key holds a running timer,
fold `now - last_update` into `total_elapsed` and mark it paused; in every
case respond with the body field `success: true` (the `Bool` component). -/
def pause (st : ServerState) (admin_id conversation_id : String) (now : Int) :
    ServerState × Bool :=
  let key := timerKey admin_id conversation_id
  let st1 :=
    match mapGet st.timers key with
    | some timer =>
        if timer.status = .running then
          let t2 : Timer := { timer with
            total_elapsed := timer.total_elapsed + (now - timer.last_update)
            status := .paused
            last_update := now }
          { st with timers := mapSet st.timers key t2 }
        else st
    | none => st
  (st1, true)

/-- The resume endpoint, lines 264-275: when the key holds a paused timer,
mark it running and refresh `last_update`; always respond `success: true`. -/
def resume (st : ServerState) (admin_id conversation_id : String) (now : Int) :
    ServerState × Bool :=
  let key := timerKey admin_id conversation_id
  let st1 :=
    match mapGet st.timers key with
    | some timer =>
        if timer.status = .paused then
          let t2 : Timer := { timer with status := .running, last_update := now }
          { st with timers := mapSet st.timers key t2 }
        else st
    | none => st
  (st1, true)

/-- Lines 322-328 of `stopTimer`: fold the open running interval into
`total_elapsed` (only when running), then mark stopped and set
`final_duration` and `end_time`.  This is the in-place mutation performed on
the timer object. -/
def finalizeTimer (t : Timer) (now : Int) : Timer :=
  let t1 :=
    if t.status = .running then
      { t with total_elapsed := t.total_elapsed + (now - t.last_update) }
    else t
  { t1 with status := .stopped
            final_duration := some t1.total_elapsed
            end_time := some now }

/-- `stopTimer` (lines 321-339): finalize the timer, push a spread copy of it
onto the key's history array, and delete the key from the active map.  The
returned `Timer` is the mutated object (the value the live reference now
holds). -/
def stopTimer (st : ServerState) (t : Timer) (now : Int) : ServerState × Timer :=
  let t2 := finalizeTimer t now
  let historyKey := timerKey t.admin_id t.conversation_id
  let history := (mapGet st.conversationHistory historyKey).getD []
  ({ timers := mapDelete st.timers (timerKey t.admin_id t.conversation_id)
     conversationHistory :=
       mapSet st.conversationHistory historyKey (history ++ [t2]) }, t2)

/-- The `for (const [timerKey, timer] of timers.entries())` loop of the
webhook handler (lines 239-243), iterating while `stopTimer` deletes entries.
A JavaScript `Map` iterator visits the entries alive at the time they are
reached, in insertion order: an entry deleted before its turn is skipped, and
`stopTimer` never adds to `timers`, so no new entries appear.  The loop is
therefore embedded as a walk over the snapshot of entries that re-reads the
current map at each step and skips keys that have been deleted. -/
def closeLoop (cid : String) (now : Int) :
    List (String × Timer) → ServerState → ServerState
  | [], acc => acc
  | kv :: rest, acc =>
      match mapGet acc.timers kv.1 with
      | none => closeLoop cid now rest acc
      | some t =>
          if t.conversation_id = cid then
            closeLoop cid now rest (stopTimer acc t now).1
          else closeLoop cid now rest acc

/-- The `conversation.admin.closed` branch of the webhook (lines 235-244):
stop every active timer whose `conversation_id` matches. -/
def handleConversationClosed (st : ServerState) (conversationId : String)
    (now : Int) : ServerState :=
  closeLoop conversationId now st.timers st

/-- JavaScript truthiness of the `final_duration` field as used by the filter
`s => s.final_duration` (line 299): an absent field and the number `0` are
falsy, every other number is truthy. -/
def truthyDuration (o : Option Int) : Bool :=
  match o with
  | none => false
  | some d => decide (d ≠ 0)

/-- JavaScript `key.startsWith(prefixString)` on the UTF-8 code points. -/
def strStartsWith (s pre : String) : Bool :=
  pre.data.isPrefixOf s.data

/-- The collection loop of the analytics endpoint (lines 283-287): concatenate
the history arrays of every key starting with `admin_id ++ "_"`, in map
insertion order. -/
def adminSessionsOf (st : ServerState) (adminId : String) : List Timer :=
  st.conversationHistory.foldl
    (fun acc kv => if strStartsWith kv.1 (adminId ++ "_") then acc ++ kv.2 else acc) []

/-- The response body of the analytics endpoint (numeric fields; the
`formatted` block is presentation only). -/
structure AnalyticsResult where
  total_sessions : Nat
  total_time : Int
  average_time : ℚ
  median_time : Int
deriving Repr, DecidableEq

/-- The analytics endpoint (lines 278-318): collect the admin's sessions; on
an empty collection answer all zeros; otherwise filter to truthy
`final_duration`, sort ascending (`(a, b) => a - b`; the sort algorithm of
`Array.prototype.sort` is implementation-defined, so any ascending sort is a
faithful embedding), and report count, sum, mean (exact rational division;
JavaScript would produce `NaN` for `0/0`, which no claim touches) and the
element at index `floor(length / 2)`. -/
def analytics (st : ServerState) (adminId : String) : AnalyticsResult :=
  let adminSessions := adminSessionsOf st adminId
  if adminSessions.isEmpty then
    { total_sessions := 0, total_time := 0, average_time := 0, median_time := 0 }
  else
    let durations :=
      List.insertionSort (· ≤ ·)
        ((adminSessions.filter (fun s => truthyDuration s.final_duration)).map
          (fun s => s.final_duration.getD 0))
    let totalTime : Int := durations.foldl (· + ·) 0
    let averageTime : ℚ := (totalTime : ℚ) / (durations.length : ℚ)
    let medianTime := if durations.length > 0 then durations.getD (durations.length / 2) 0 else 0
    { total_sessions := durations.length
      total_time := totalTime
      average_time := averageTime
      median_time := medianTime }

/-- Reference-semantics view of the stores, used to state the copy-on-write
claim: `heap` maps object addresses to timer objects, the active map holds
references (addresses) as a JavaScript `Map` does, while each history array
element is a spread-copied value. -/
structure RefState where
  heap : List (Nat × Timer)
  timers : List (String × Nat)
  conversationHistory : List (String × List Timer)
deriving Repr, DecidableEq

/-- `stopTimer` under reference semantics: mutate the object behind `addr` in
place, push the value copy `\x7b ...timer \x7d` (line 333) onto the history
array, and delete the key from the active map. -/
def stopTimerRef (st : RefState) (addr : Nat) (now : Int) : RefState :=
  match mapGet st.heap addr with
  | none => st
  | some t =>
      let t2 := finalizeTimer t now
      let key := timerKey t.admin_id t.conversation_id
      { heap := mapSet st.heap addr t2
        timers := mapDelete st.timers key
        conversationHistory := mapSet st.conversationHistory key
          ((mapGet st.conversationHistory key).getD [] ++ [t2]) }

/-- An arbitrary later in-place mutation of the live timer object at `addr`. -/
def writeHeap (st : RefState) (addr : Nat) (f : Timer → Timer) : RefState :=
  match mapGet st.heap addr with
  | none => st
  | some t => { st with heap := mapSet st.heap addr (f t) }

/-- Modelled from the spec (§6, §7): the interface there gives `pause` the
result type `TimerSnapshot | NotFound`, with `NotFound` returned when the key
has no active timer.  The HTTP layer of the source has no such discriminated
result; this definition follows the spec's words for comparison. -/
inductive SpecPauseResult where
  | snapshot (t : Timer)
  | notFound
deriving Repr, DecidableEq

/-- Modelled from the spec (§4.1, §6): `pause` returns the updated snapshot
when the key holds a running timer and `NotFound` otherwise. -/
def specPause (st : ServerState) (admin_id conversation_id : String) (now : Int) :
    SpecPauseResult :=
  match mapGet st.timers (timerKey admin_id conversation_id) with
  | some timer =>
      if timer.status = .running then
        .snapshot { timer with
            total_elapsed := timer.total_elapsed + (now - timer.last_update)
            status := .paused
            last_update := now }
      else .notFound
  | none => .notFound

/-- The active-store status invariant: every stored timer is running or
paused (never stopped), which is the store-membership half of the
"key present iff Running or Paused" invariant. -/
def ActiveInv (st : ServerState) : Prop :=
  ∀ kv ∈ st.timers, kv.2.status = .running ∨ kv.2.status = .paused

/-- Keys of the active map are pairwise distinct (structural property of a
JavaScript `Map`). -/
def KeysNodup (st : ServerState) : Prop :=
  (st.timers.map Prod.fst).Nodup

/-- Every active entry is stored under the key derived from its own
`admin_id` and `conversation_id` fields — true of every state the server can
reach, since entries are only created by the start logic under exactly that
key and pause/resume never change the two id fields. -/
def KeyConsistent (st : ServerState) : Prop :=
  ∀ kv ∈ st.timers, kv.1 = timerKey kv.2.admin_id kv.2.conversation_id

section MapLemmas

variable {κ α : Type} [DecidableEq κ]

theorem mapGet_set_self (m : List (κ × α)) (k : κ) (v : α) :
    mapGet (mapSet m k v) k = some v := by
  induction m with
  | nil => simp [mapGet, mapSet]
  | cons kv rest ih =>
      by_cases h : kv.1 = k
      · simp [mapGet, mapSet, h]
      · simp [mapGet, mapSet, h, ih]

theorem mapGet_set_ne (m : List (κ × α)) {k k' : κ} (v : α) (h : k ≠ k') :
    mapGet (mapSet m k v) k' = mapGet m k' := by
  induction m with
  | nil => simp [mapGet, mapSet, h]
  | cons kv rest ih =>
      by_cases hk : kv.1 = k
      · subst hk
        simp [mapGet, mapSet, h]
      · by_cases hk' : kv.1 = k'
        · simp [mapGet, mapSet, hk, hk', Ne.symm h]
        · simp [mapGet, mapSet, hk, hk', ih]

theorem mapGet_delete_self (m : List (κ × α)) (k : κ) :
    mapGet (mapDelete m k) k = none := by
  induction m with
  | nil => simp [mapGet, mapDelete]
  | cons kv rest ih =>
      by_cases h : kv.1 = k
      · simp [mapDelete, h, ih]
      · simp [mapGet, mapDelete, h, ih]

theorem mapGet_delete_ne (m : List (κ × α)) {k k' : κ} (h : k ≠ k') :
    mapGet (mapDelete m k) k' = mapGet m k' := by
  induction m with
  | nil => simp [mapGet, mapDelete]
  | cons kv rest ih =>
      by_cases hk : kv.1 = k
      · subst hk
        simp [mapGet, mapDelete, h, Ne.symm h, ih]
      · by_cases hk' : kv.1 = k'
        · simp [mapGet, mapDelete, hk, hk', Ne.symm h]
        · simp [mapGet, mapDelete, hk, hk', ih]

theorem mem_mapSet {m : List (κ × α)} {k : κ} {v : α} {kv : κ × α}
    (h : kv ∈ mapSet m k v) : kv ∈ m ∨ kv = (k, v) := by
  induction m with
  | nil => simpa [mapSet] using h
  | cons hd rest ih =>
      by_cases hk : hd.1 = k
      · simp only [mapSet, if_pos hk, List.mem_cons] at h
        rcases h with h | h
        · exact Or.inr h
        · exact Or.inl (List.mem_cons_of_mem _ h)
      · simp only [mapSet, if_neg hk, List.mem_cons] at h
        rcases h with h | h
        · exact Or.inl (h ▸ List.mem_cons_self _ _)
        · rcases ih h with h1 | h1
          · exact Or.inl (List.mem_cons_of_mem _ h1)
          · exact Or.inr h1

theorem mapDelete_eq_filter (m : List (κ × α)) (k : κ) :
    mapDelete m k = m.filter (fun kv => decide (kv.1 ≠ k)) := by
  induction m with
  | nil => rfl
  | cons kv rest ih =>
      by_cases h : kv.1 = k
      · simp [mapDelete, h, ih]
      · simp [mapDelete, h, ih]

theorem mem_mapDelete {m : List (κ × α)} {k : κ} {kv : κ × α}
    (h : kv ∈ mapDelete m k) : kv ∈ m := by
  rw [mapDelete_eq_filter] at h
  exact List.mem_of_mem_filter h

end MapLemmas

/-- The timer object the start logic creates for an absent key. -/
def freshTimer (adminId conversationId sessionId : String) (now : Int) : Timer :=
  { admin_id := adminId
    conversation_id := conversationId
    session_id := sessionId
    start_time := now
    total_elapsed := 0
    status := .running
    last_update := now }

/-- The record update the pause endpoint applies to a running timer. -/
def pausedOf (tm : Timer) (now : Int) : Timer :=
  { tm with total_elapsed := tm.total_elapsed + (now - tm.last_update)
            status := .paused
            last_update := now }

/-- The record update the resume path applies to a paused timer. -/
def resumedOf (tm : Timer) (now : Int) : Timer :=
  { tm with status := .running, last_update := now }

theorem startTimer_absent (st : ServerState) (A C sid : String) (t0 : Int)
    (habs : mapGet st.timers (timerKey A C) = none) :
    startTimer st A C sid t0 =
      { st with timers := mapSet st.timers (timerKey A C) (freshTimer A C sid t0) } := by
  simp [startTimer, habs, freshTimer]

theorem pause_running (st : ServerState) (A C : String) (t1 : Int) (tm : Timer)
    (hget : mapGet st.timers (timerKey A C) = some tm) (hrun : tm.status = .running) :
    (pause st A C t1).1 =
      { st with timers := mapSet st.timers (timerKey A C) (pausedOf tm t1) } := by
  simp [pause, hget, hrun, pausedOf]

theorem resume_paused (st : ServerState) (A C : String) (t2 : Int) (tm : Timer)
    (hget : mapGet st.timers (timerKey A C) = some tm) (hp : tm.status = .paused) :
    (resume st A C t2).1 =
      { st with timers := mapSet st.timers (timerKey A C) (resumedOf tm t2) } := by
  simp [resume, hget, hp, resumedOf]

/-- Claim C1: for every sequence start at `t0`, pause at `t1`, resume at `t2`,
stop at `t3` (with `t0 ≤ t1 ≤ t2 ≤ t3`) on a key with no prior timer, the
timer holds `total_elapsed = t1 - t0` after the pause, and stopping yields
`final_duration = (t1 - t0) + (t3 - t2)`: the sum of the two running-interval
deltas, the paused interval excluded. -/
theorem c1_pause_resume_stop_duration (st : ServerState) (A C sid : String)
    (t0 t1 t2 t3 : Int)
    (habs : mapGet st.timers (timerKey A C) = none)
    (h01 : t0 ≤ t1) (h12 : t1 ≤ t2) (h23 : t2 ≤ t3) :
    (∀ tp, mapGet ((pause (startTimer st A C sid t0) A C t1).1).timers (timerKey A C) =
        some tp → tp.total_elapsed = t1 - t0) ∧
    (∀ tr, mapGet ((resume (pause (startTimer st A C sid t0) A C t1).1 A C t2).1).timers
        (timerKey A C) = some tr →
      (stopTimer ((resume (pause (startTimer st A C sid t0) A C t1).1 A C t2).1) tr
          t3).2.final_duration = some ((t1 - t0) + (t3 - t2))) := by
  have h1 := startTimer_absent st A C sid t0 habs
  have hget1 : mapGet (startTimer st A C sid t0).timers (timerKey A C) =
      some (freshTimer A C sid t0) := by
    rw [h1]; exact mapGet_set_self _ _ _
  have h2 := pause_running (startTimer st A C sid t0) A C t1 _ hget1 rfl
  have hget2 : mapGet ((pause (startTimer st A C sid t0) A C t1).1).timers (timerKey A C) =
      some (pausedOf (freshTimer A C sid t0) t1) := by
    rw [h2]; exact mapGet_set_self _ _ _
  constructor
  · intro tp hp
    rw [hget2] at hp
    cases hp
    simp [pausedOf, freshTimer]
  · have h3 := resume_paused _ A C t2 _ hget2 rfl
    intro tr hr
    rw [h3] at hr
    simp only [mapGet_set_self] at hr
    cases hr
    simp [stopTimer, finalizeTimer, resumedOf, pausedOf, freshTimer]

/-- Witness for C1 at the spec's example: start at 0, pause at 10000, resume
at 15000, stop at 25000 gives `total_elapsed = 10000` after the pause and
`final_duration = 20000`. -/
theorem c1_pause_resume_stop_duration_witness :
    (mapGet initState.timers (timerKey "A" "C") = none ∧
      (0 : Int) ≤ 10000 ∧ (10000 : Int) ≤ 15000 ∧ (15000 : Int) ≤ 25000) ∧
    ((∀ tp, mapGet ((pause (startTimer initState "A" "C" "S" 0) "A" "C" 10000).1).timers
        (timerKey "A" "C") = some tp → tp.total_elapsed = 10000 - 0) ∧
     (∀ tr, mapGet ((resume (pause (startTimer initState "A" "C" "S" 0) "A" "C"
          10000).1 "A" "C" 15000).1).timers (timerKey "A" "C") = some tr →
        (stopTimer ((resume (pause (startTimer initState "A" "C" "S" 0) "A" "C"
          10000).1 "A" "C" 15000).1) tr 25000).2.final_duration =
          some ((10000 - 0) + (25000 - 15000)))) :=
  ⟨⟨by decide, by decide, by decide, by decide⟩,
    c1_pause_resume_stop_duration initState "A" "C" "S" 0 10000 15000 25000
      (by decide) (by decide) (by decide) (by decide)⟩

theorem stopTimer_timers (st : ServerState) (t : Timer) (now : Int) :
    (stopTimer st t now).1.timers =
      mapDelete st.timers (timerKey t.admin_id t.conversation_id) := rfl

theorem stopTimer_history (st : ServerState) (t : Timer) (now : Int) :
    (stopTimer st t now).1.conversationHistory =
      mapSet st.conversationHistory (timerKey t.admin_id t.conversation_id)
        ((mapGet st.conversationHistory (timerKey t.admin_id t.conversation_id)).getD []
          ++ [finalizeTimer t now]) := rfl

theorem stopTimer_snd (st : ServerState) (t : Timer) (now : Int) :
    (stopTimer st t now).2 = finalizeTimer t now := rfl

theorem finalizeTimer_status (t : Timer) (now : Int) :
    (finalizeTimer t now).status = .stopped := by
  unfold finalizeTimer
  by_cases h : t.status = .running <;> simp [h]

theorem finalizeTimer_session (t : Timer) (now : Int) :
    (finalizeTimer t now).session_id = t.session_id := by
  unfold finalizeTimer
  by_cases h : t.status = .running <;> simp [h]

theorem finalizeTimer_final (t : Timer) (now : Int) :
    (finalizeTimer t now).final_duration = some (finalizeTimer t now).total_elapsed := by
  unfold finalizeTimer
  by_cases h : t.status = .running <;> simp [h]

theorem AllLive_mapSet {m : List (String × Timer)} {v : Timer} (k : String)
    (hm : ∀ kv ∈ m, kv.2.status = .running ∨ kv.2.status = .paused)
    (hv : v.status = .running ∨ v.status = .paused) :
    ∀ kv ∈ mapSet m k v, kv.2.status = .running ∨ kv.2.status = .paused := by
  intro kv hkv
  rcases mem_mapSet hkv with h | h
  · exact hm kv h
  · rw [h]; exact hv

theorem startTimer_timers_cases (st : ServerState) (A C sid : String) (now : Int) :
    (startTimer st A C sid now).timers = st.timers ∨
    ∃ v : Timer, v.status = .running ∧
      (startTimer st A C sid now).timers = mapSet st.timers (timerKey A C) v := by
  rcases hg : mapGet st.timers (timerKey A C) with _ | t
  · exact Or.inr ⟨freshTimer A C sid now, rfl, by simp [startTimer, hg, freshTimer]⟩
  · by_cases hp : t.status = .paused
    · exact Or.inr ⟨resumedOf t now, rfl, by simp [startTimer, hg, hp, resumedOf]⟩
    · exact Or.inl (by simp [startTimer, hg, hp])

theorem pause_timers_cases (st : ServerState) (A C : String) (now : Int) :
    (pause st A C now).1.timers = st.timers ∨
    ∃ v : Timer, v.status = .paused ∧
      (pause st A C now).1.timers = mapSet st.timers (timerKey A C) v := by
  rcases hg : mapGet st.timers (timerKey A C) with _ | t
  · exact Or.inl (by simp [pause, hg])
  · by_cases hr : t.status = .running
    · exact Or.inr ⟨pausedOf t now, rfl, by simp [pause, hg, hr, pausedOf]⟩
    · exact Or.inl (by simp [pause, hg, hr])

theorem resume_timers_cases (st : ServerState) (A C : String) (now : Int) :
    (resume st A C now).1.timers = st.timers ∨
    ∃ v : Timer, v.status = .running ∧
      (resume st A C now).1.timers = mapSet st.timers (timerKey A C) v := by
  rcases hg : mapGet st.timers (timerKey A C) with _ | t
  · exact Or.inl (by simp [resume, hg])
  · by_cases hp : t.status = .paused
    · exact Or.inr ⟨resumedOf t now, rfl, by simp [resume, hg, hp, resumedOf]⟩
    · exact Or.inl (by simp [resume, hg, hp])

theorem closeLoop_timers_subset (cid : String) (now : Int) :
    ∀ (entries : List (String × Timer)) (acc : ServerState) (kv : String × Timer),
      kv ∈ (closeLoop cid now entries acc).timers → kv ∈ acc.timers := by
  intro entries
  induction entries with
  | nil => intro acc kv h; exact h
  | cons e rest ih =>
      intro acc kv h
      unfold closeLoop at h
      split at h
      · exact ih acc kv h
      · split at h
        · have h2 := ih _ kv h
          rw [stopTimer_timers] at h2
          exact mem_mapDelete h2
        · exact ih acc kv h

/-- Claim C2: every timer stored in the active map has status Running or
Paused, this invariant is preserved by start, pause, resume and the
conversation-close handler, and immediately after `stopTimer` the key is
absent from the active map while a snapshot with the same `session_id`, now
Stopped, with `final_duration` equal to its `total_elapsed` at stop time, sits
at the tail of that key's history list. -/
theorem c2_active_iff_live_invariant (st : ServerState) (A C sid : String)
    (now : Int) (hInv : ActiveInv st) :
    ActiveInv (startTimer st A C sid now) ∧
    ActiveInv (pause st A C now).1 ∧
    ActiveInv (resume st A C now).1 ∧
    ActiveInv (handleConversationClosed st C now) ∧
    (∀ tm : Timer,
      mapGet (stopTimer st tm now).1.timers (timerKey tm.admin_id tm.conversation_id)
          = none ∧
      (stopTimer st tm now).2.status = .stopped ∧
      (stopTimer st tm now).2.session_id = tm.session_id ∧
      (stopTimer st tm now).2.final_duration =
        some (stopTimer st tm now).2.total_elapsed ∧
      mapGet (stopTimer st tm now).1.conversationHistory
          (timerKey tm.admin_id tm.conversation_id) =
        some ((mapGet st.conversationHistory
            (timerKey tm.admin_id tm.conversation_id)).getD []
          ++ [(stopTimer st tm now).2])) := by
  refine ⟨?_, ?_, ?_, ?_, ?_⟩
  · intro kv hkv
    rcases startTimer_timers_cases st A C sid now with h | ⟨v, hv, h⟩
    · exact hInv kv (h ▸ hkv)
    · exact AllLive_mapSet (timerKey A C) hInv (Or.inl hv) kv (h ▸ hkv)
  · intro kv hkv
    rcases pause_timers_cases st A C now with h | ⟨v, hv, h⟩
    · exact hInv kv (h ▸ hkv)
    · exact AllLive_mapSet (timerKey A C) hInv (Or.inr hv) kv (h ▸ hkv)
  · intro kv hkv
    rcases resume_timers_cases st A C now with h | ⟨v, hv, h⟩
    · exact hInv kv (h ▸ hkv)
    · exact AllLive_mapSet (timerKey A C) hInv (Or.inl hv) kv (h ▸ hkv)
  · intro kv hkv
    exact hInv kv (closeLoop_timers_subset C now st.timers st kv hkv)
  · intro tm
    refine ⟨?_, ?_, ?_, ?_, ?_⟩
    · rw [stopTimer_timers]; exact mapGet_delete_self _ _
    · rw [stopTimer_snd]; exact finalizeTimer_status tm now
    · rw [stopTimer_snd]; exact finalizeTimer_session tm now
    · rw [stopTimer_snd]; exact finalizeTimer_final tm now
    · rw [stopTimer_history, stopTimer_snd]; exact mapGet_set_self _ _ _

/-- Witness for C2 at a concrete two-timer store. -/
theorem c2_active_iff_live_invariant_witness :
    ActiveInv (startTimer (startTimer initState "A" "C" "S1" 0) "B" "C" "S2" 5) ∧
    (ActiveInv (startTimer (startTimer (startTimer initState "A" "C" "S1" 0) "B" "C"
        "S2" 5) "A" "D" "S3" 7) ∧
     ActiveInv (pause (startTimer (startTimer initState "A" "C" "S1" 0) "B" "C" "S2" 5)
        "A" "D" 7).1 ∧
     ActiveInv (resume (startTimer (startTimer initState "A" "C" "S1" 0) "B" "C" "S2" 5)
        "A" "D" 7).1 ∧
     ActiveInv (handleConversationClosed (startTimer (startTimer initState "A" "C" "S1"
        0) "B" "C" "S2" 5) "D" 7) ∧
     (∀ tm : Timer,
       mapGet (stopTimer (startTimer (startTimer initState "A" "C" "S1" 0) "B" "C" "S2"
          5) tm 7).1.timers (timerKey tm.admin_id tm.conversation_id) = none ∧
       (stopTimer (startTimer (startTimer initState "A" "C" "S1" 0) "B" "C" "S2" 5) tm
          7).2.status = .stopped ∧
       (stopTimer (startTimer (startTimer initState "A" "C" "S1" 0) "B" "C" "S2" 5) tm
          7).2.session_id = tm.session_id ∧
       (stopTimer (startTimer (startTimer initState "A" "C" "S1" 0) "B" "C" "S2" 5) tm
          7).2.final_duration = some (stopTimer (startTimer (startTimer initState "A"
          "C" "S1" 0) "B" "C" "S2" 5) tm 7).2.total_elapsed ∧
       mapGet (stopTimer (startTimer (startTimer initState "A" "C" "S1" 0) "B" "C" "S2"
          5) tm 7).1.conversationHistory (timerKey tm.admin_id tm.conversation_id) =
         some ((mapGet (startTimer (startTimer initState "A" "C" "S1" 0) "B" "C" "S2"
            5).conversationHistory (timerKey tm.admin_id tm.conversation_id)).getD []
          ++ [(stopTimer (startTimer (startTimer initState "A" "C" "S1" 0) "B" "C" "S2"
            5) tm 7).2]))) :=
  ⟨by unfold ActiveInv; decide,
    c2_active_iff_live_invariant (startTimer (startTimer initState "A" "C" "S1" 0) "B"
      "C" "S2" 5) "A" "D" "S3" 7 (by unfold ActiveInv; decide)⟩

/-- Claim C8: a second start on a key whose timer is Running is a complete
no-op on the state — `total_elapsed` is not reset, no new `session_id` is
minted, `start_time` and `last_update` do not move, so elapsed time over the
interval is accounted exactly once by the next pause or stop. -/
theorem c8_start_idempotent_while_running (st : ServerState) (A C sid2 : String)
    (t2 : Int) (tm : Timer)
    (hget : mapGet st.timers (timerKey A C) = some tm)
    (hrun : tm.status = .running) :
    startTimer st A C sid2 t2 = st := by
  simp [startTimer, hget, hrun]

/-- Witness for C8: a second start 7ms after the first changes nothing. -/
theorem c8_start_idempotent_while_running_witness :
    mapGet (startTimer initState "A" "C" "S1" 0).timers (timerKey "A" "C") =
      some (freshTimer "A" "C" "S1" 0) ∧
    (freshTimer "A" "C" "S1" 0).status = .running ∧
    startTimer (startTimer initState "A" "C" "S1" 0) "A" "C" "S2" 7 =
      startTimer initState "A" "C" "S1" 0 :=
  ⟨by decide, by decide,
    c8_start_idempotent_while_running (startTimer initState "A" "C" "S1" 0) "A" "C"
      "S2" 7 (freshTimer "A" "C" "S1" 0) (by decide) (by decide)⟩

/-- Appending one snapshot to a key's history list, as `stopTimer` does. -/
def histAppend (h : List (String × List Timer)) (k : String) (rec : Timer) :
    List (String × List Timer) :=
  mapSet h k ((mapGet h k).getD [] ++ [rec])

theorem stopTimer_history_append (st : ServerState) (t : Timer) (now : Int) :
    (stopTimer st t now).1.conversationHistory =
      histAppend st.conversationHistory (timerKey t.admin_id t.conversation_id)
        (finalizeTimer t now) := rfl

/-- The close loop replayed over the snapshot of entries taken when the loop
began, used to analyse `closeLoop`. -/
def snapFold (cid : String) (now : Int) :
    List (String × Timer) → ServerState → ServerState
  | [], acc => acc
  | kv :: rest, acc =>
      snapFold cid now rest
        (if kv.2.conversation_id = cid then (stopTimer acc kv.2 now).1 else acc)

theorem mapGet_of_mem_nodup {α : Type} :
    ∀ {l : List (String × α)}, (l.map Prod.fst).Nodup →
      ∀ {kv : String × α}, kv ∈ l → mapGet l kv.1 = some kv.2 := by
  intro l
  induction l with
  | nil => intro _ kv hkv; cases hkv
  | cons e rest ih =>
      intro hnd kv hkv
      rw [List.map_cons, List.nodup_cons] at hnd
      rcases List.mem_cons.mp hkv with rfl | hkv2
      · simp [mapGet]
      · have hne : e.1 ≠ kv.1 := by
          intro hcontra
          exact hnd.1 (hcontra ▸ List.mem_map_of_mem Prod.fst hkv2)
        simp only [mapGet, if_neg hne]
        exact ih hnd.2 hkv2

theorem eq_of_fst_eq_of_nodup {α β : Type} :
    ∀ {l : List (α × β)}, (l.map Prod.fst).Nodup →
      ∀ {p q : α × β}, p ∈ l → q ∈ l → p.1 = q.1 → p = q := by
  intro l
  induction l with
  | nil => intro _ p q hp; cases hp
  | cons e rest ih =>
      intro hnd p q hp hq hpq
      rw [List.map_cons, List.nodup_cons] at hnd
      rcases List.mem_cons.mp hp with rfl | hp2
      · rcases List.mem_cons.mp hq with rfl | hq2
        · rfl
        · exact absurd (hpq ▸ List.mem_map_of_mem Prod.fst hq2) hnd.1
      · rcases List.mem_cons.mp hq with rfl | hq2
        · exact absurd (hpq ▸ List.mem_map_of_mem Prod.fst hp2) hnd.1
        · exact ih hnd.2 hp2 hq2 hpq

/-- Under distinct, consistent keys, the live-map iteration of `closeLoop`
coincides with the snapshot replay: the only deletion a step performs is of
the very entry being visited, so later entries are still found with their
original values. -/
theorem closeLoop_eq_snapFold (cid : String) (now : Int) :
    ∀ (entries : List (String × Timer)) (acc : ServerState),
      (∀ kv ∈ entries, mapGet acc.timers kv.1 = some kv.2) →
      (entries.map Prod.fst).Nodup →
      (∀ kv ∈ entries, kv.1 = timerKey kv.2.admin_id kv.2.conversation_id) →
      closeLoop cid now entries acc = snapFold cid now entries acc := by
  intro entries
  induction entries with
  | nil => intro acc _ _ _; rfl
  | cons e rest ih =>
      intro acc hvals hnd hkc
      rw [List.map_cons, List.nodup_cons] at hnd
      have hged : mapGet acc.timers e.1 = some e.2 := hvals e (List.mem_cons_self e rest)
      unfold closeLoop snapFold
      rw [hged]
      dsimp only
      by_cases hc : e.2.conversation_id = cid
      · rw [if_pos hc, if_pos hc]
        apply ih
        · intro kv hkv
          have hne : e.1 ≠ kv.1 := by
            intro hcontra
            exact hnd.1 (hcontra ▸ List.mem_map_of_mem Prod.fst hkv)
          rw [stopTimer_timers]
          rw [← hkc e (List.mem_cons_self e rest)]
          rw [mapGet_delete_ne _ hne]
          exact hvals kv (List.mem_cons_of_mem e hkv)
        · exact hnd.2
        · intro kv hkv; exact hkc kv (List.mem_cons_of_mem e hkv)
      · rw [if_neg hc, if_neg hc]
        apply ih
        · intro kv hkv; exact hvals kv (List.mem_cons_of_mem e hkv)
        · exact hnd.2
        · intro kv hkv; exact hkc kv (List.mem_cons_of_mem e hkv)

theorem snapFold_timers (cid : String) (now : Int) :
    ∀ (entries : List (String × Timer)) (acc : ServerState),
      (snapFold cid now entries acc).timers =
        entries.foldl
          (fun m kv => if kv.2.conversation_id = cid then
            mapDelete m (timerKey kv.2.admin_id kv.2.conversation_id) else m)
          acc.timers := by
  intro entries
  induction entries with
  | nil => intro acc; rfl
  | cons e rest ih =>
      intro acc
      unfold snapFold
      rw [List.foldl_cons]
      by_cases hc : e.2.conversation_id = cid
      · rw [if_pos hc, if_pos hc, ih, stopTimer_timers]
      · rw [if_neg hc, if_neg hc, ih]

theorem snapFold_history (cid : String) (now : Int) :
    ∀ (entries : List (String × Timer)) (acc : ServerState),
      (snapFold cid now entries acc).conversationHistory =
        entries.foldl
          (fun h kv => if kv.2.conversation_id = cid then
            histAppend h (timerKey kv.2.admin_id kv.2.conversation_id)
              (finalizeTimer kv.2 now) else h)
          acc.conversationHistory := by
  intro entries
  induction entries with
  | nil => intro acc; rfl
  | cons e rest ih =>
      intro acc
      unfold snapFold
      rw [List.foldl_cons]
      by_cases hc : e.2.conversation_id = cid
      · rw [if_pos hc, if_pos hc, ih, stopTimer_history_append]
      · rw [if_neg hc, if_neg hc, ih]

theorem foldl_ite_eq_foldl_filter {α β : Type} (p : α → Prop) [DecidablePred p]
    (f : β → α → β) :
    ∀ (l : List α) (b : β),
      l.foldl (fun acc x => if p x then f acc x else acc) b =
      (l.filter (fun x => decide (p x))).foldl f b := by
  intro l
  induction l with
  | nil => intro b; rfl
  | cons x xs ih =>
      intro b
      rw [List.foldl_cons]
      by_cases hx : p x
      · rw [if_pos hx]
        have : List.filter (fun x => decide (p x)) (x :: xs) =
            x :: List.filter (fun x => decide (p x)) xs := by
          simp [List.filter_cons, hx]
        rw [this, List.foldl_cons, ih]
      · rw [if_neg hx]
        have : List.filter (fun x => decide (p x)) (x :: xs) =
            List.filter (fun x => decide (p x)) xs := by
          simp [List.filter_cons, hx]
        rw [this, ih]

theorem foldl_delete_eq_filter {α : Type} :
    ∀ (es : List (String × Timer)) (m : List (String × α)),
      es.foldl (fun m kv =>
          mapDelete m (timerKey kv.2.admin_id kv.2.conversation_id)) m =
      m.filter (fun p =>
        decide (∀ kv ∈ es, p.1 ≠ timerKey kv.2.admin_id kv.2.conversation_id)) := by
  intro es
  induction es with
  | nil =>
      intro m
      rw [List.foldl_nil]
      refine (List.filter_eq_self.mpr ?_).symm
      intro p _
      simp
  | cons e rest ih =>
      intro m
      rw [List.foldl_cons, ih, mapDelete_eq_filter, List.filter_filter]
      refine List.filter_congr (fun p hp => ?_)
      rw [Bool.eq_iff_iff]
      simp [List.forall_mem_cons, and_comm]

theorem filter_keys_not_matched (st : ServerState) (cid : String)
    (hnd : KeysNodup st) (hkc : KeyConsistent st)
    (matched : List (String × Timer))
    (hm : matched = st.timers.filter (fun kv => decide (kv.2.conversation_id = cid))) :
    st.timers.filter (fun p =>
      decide (∀ kv ∈ matched, p.1 ≠ timerKey kv.2.admin_id kv.2.conversation_id)) =
    st.timers.filter (fun p => decide (¬ p.2.conversation_id = cid)) := by
  have hpt : ∀ p ∈ st.timers,
      (decide (∀ kv ∈ matched,
        p.1 ≠ timerKey kv.2.admin_id kv.2.conversation_id) : Bool) =
      decide (¬ p.2.conversation_id = cid) := by
    intro p hp
    rw [decide_eq_decide]
    constructor
    · intro hall hceq
      have hpmem : p ∈ matched := by
        rw [hm]
        exact List.mem_filter.mpr ⟨hp, by simp [hceq]⟩
      exact hall p hpmem (hkc p hp)
    · intro hnc kv hkv heq
      rw [hm] at hkv
      have hkv2 := List.mem_filter.mp hkv
      have hk1 : kv.1 = timerKey kv.2.admin_id kv.2.conversation_id := hkc kv hkv2.1
      have hpq : p = kv := eq_of_fst_eq_of_nodup hnd hp hkv2.1 (by rw [heq, ← hk1])
      exact hnc (hpq ▸ (of_decide_eq_true hkv2.2))
  exact List.filter_congr hpt

/-- Claim C3: on a conversation-closed event, the webhook loop stops every
active timer whose `conversation_id` matches — each exactly once, appending
exactly one finalized snapshot per matching timer to its key's history, in
iteration order — and leaves every timer on another conversation untouched
(the active map afterwards is precisely the original list filtered to the
non-matching entries), even though `stopTimer` deletes entries from the map
being iterated.  The hypotheses say the store is a genuine map (distinct
keys) whose entries sit under the key derived from their own ids, which holds
in every reachable state. -/
theorem c3_close_finalizes_every_match (st : ServerState) (cid : String) (now : Int)
    (hnd : KeysNodup st) (hkc : KeyConsistent st) :
    (handleConversationClosed st cid now).timers =
      st.timers.filter (fun kv => decide (¬ kv.2.conversation_id = cid)) ∧
    (handleConversationClosed st cid now).conversationHistory =
      (st.timers.filter (fun kv => decide (kv.2.conversation_id = cid))).foldl
        (fun h kv => histAppend h (timerKey kv.2.admin_id kv.2.conversation_id)
          (finalizeTimer kv.2 now)) st.conversationHistory := by
  have hvals : ∀ kv ∈ st.timers, mapGet st.timers kv.1 = some kv.2 :=
    fun kv hkv => mapGet_of_mem_nodup hnd hkv
  have hL1 : handleConversationClosed st cid now = snapFold cid now st.timers st :=
    closeLoop_eq_snapFold cid now st.timers st hvals hnd hkc
  constructor
  · rw [hL1, snapFold_timers,
      foldl_ite_eq_foldl_filter (fun kv : String × Timer => kv.2.conversation_id = cid)
        (fun m kv => mapDelete m (timerKey kv.2.admin_id kv.2.conversation_id)),
      foldl_delete_eq_filter]
    exact filter_keys_not_matched st cid hnd hkc _ rfl
  · rw [hL1, snapFold_history,
      foldl_ite_eq_foldl_filter (fun kv : String × Timer => kv.2.conversation_id = cid)
        (fun h kv => histAppend h (timerKey kv.2.admin_id kv.2.conversation_id)
          (finalizeTimer kv.2 now))]

/-- A concrete store with two operators on conversation `c1` and one timer on
`c2`, for exercising the close handler. -/
def closeDemoState : ServerState :=
  startTimer (startTimer (startTimer initState "op1" "c1" "s1" 0) "op2" "c1" "s2" 5)
    "op1" "c2" "s3" 8

/-- Witness for C3: closing `c1` finalizes both operators' timers on `c1` and
leaves the `c2` timer untouched. -/
theorem c3_close_finalizes_every_match_witness :
    (KeysNodup closeDemoState ∧ KeyConsistent closeDemoState) ∧
    ((handleConversationClosed closeDemoState "c1" 50).timers =
      closeDemoState.timers.filter (fun kv => decide (¬ kv.2.conversation_id = "c1")) ∧
     (handleConversationClosed closeDemoState "c1" 50).conversationHistory =
      (closeDemoState.timers.filter (fun kv => decide (kv.2.conversation_id = "c1"))).foldl
        (fun h kv => histAppend h (timerKey kv.2.admin_id kv.2.conversation_id)
          (finalizeTimer kv.2 50)) closeDemoState.conversationHistory) :=
  ⟨⟨by unfold KeysNodup; decide, by unfold KeyConsistent; decide⟩,
    c3_close_finalizes_every_match closeDemoState "c1" 50
      (by unfold KeysNodup; decide) (by unfold KeyConsistent; decide)⟩

/-- Counterexample for C4: on a key with no active timer, the pause endpoint
replies with exactly the same `success: true` body it sends after a
successful pause, and neither endpoint produces any NotFound outcome — the
spec-modelled `specPause`, which does return `notFound` there, shows what the
claim asked for.  (The no-mutation half of the claim does hold; see the
amended theorem.) -/
theorem c4_counterexample_success_not_notfound :
    pause initState "A" "C" 0 = (initState, true) ∧
    resume initState "A" "C" 0 = (initState, true) ∧
    (pause (startTimer initState "A" "C" "S" 0) "A" "C" 5).2 =
      (pause initState "A" "C" 0).2 ∧
    specPause initState "A" "C" 0 = SpecPauseResult.notFound := by decide

/-- Claim C4 (amended): pause on a key with no active (running) timer and
resume on a key with no paused timer leave both stores completely unchanged;
the endpoints answer with the same `success: true` body as in the mutating
case, not with a distinct NotFound outcome. -/
theorem c4_pause_resume_absent_no_mutation (st : ServerState) (A C : String)
    (now : Int) :
    ((mapGet st.timers (timerKey A C) = none ∨
      (∃ tm, mapGet st.timers (timerKey A C) = some tm ∧ tm.status ≠ .running)) →
      pause st A C now = (st, true)) ∧
    ((mapGet st.timers (timerKey A C) = none ∨
      (∃ tm, mapGet st.timers (timerKey A C) = some tm ∧ tm.status ≠ .paused)) →
      resume st A C now = (st, true)) := by
  constructor
  · rintro (hg | ⟨tm, hg, hs⟩)
    · simp [pause, hg]
    · simp [pause, hg, hs]
  · rintro (hg | ⟨tm, hg, hs⟩)
    · simp [resume, hg]
    · simp [resume, hg, hs]

/-- Witness for the amended C4 on the empty store. -/
theorem c4_pause_resume_absent_no_mutation_witness :
    mapGet initState.timers (timerKey "A" "C") = none ∧
    pause initState "A" "C" 3 = (initState, true) ∧
    resume initState "A" "C" 3 = (initState, true) :=
  ⟨by decide,
    (c4_pause_resume_absent_no_mutation initState "A" "C" 3).1 (Or.inl (by decide)),
    (c4_pause_resume_absent_no_mutation initState "A" "C" 3).2 (Or.inl (by decide))⟩

/-- Counterexample for C5: `stopTimer` has no idempotency guard.  Stopping the
already-stopped timer produced by a first stop at `t=100` again at `t=200`
overwrites `end_time` (100 becomes 200) and appends a second record to the
key's history — not a no-op. -/
theorem c5_counterexample_second_stop_mutates :
    (stopTimer (startTimer initState "A" "C" "S" 0) (freshTimer "A" "C" "S" 0)
        100).2.status = .stopped ∧
    (stopTimer (startTimer initState "A" "C" "S" 0) (freshTimer "A" "C" "S" 0)
        100).2.end_time = some 100 ∧
    (stopTimer
        (stopTimer (startTimer initState "A" "C" "S" 0) (freshTimer "A" "C" "S" 0)
          100).1
        (stopTimer (startTimer initState "A" "C" "S" 0) (freshTimer "A" "C" "S" 0)
          100).2 200).2.end_time = some 200 ∧
    ((mapGet (stopTimer
        (stopTimer (startTimer initState "A" "C" "S" 0) (freshTimer "A" "C" "S" 0)
          100).1
        (stopTimer (startTimer initState "A" "C" "S" 0) (freshTimer "A" "C" "S" 0)
          100).2 200).1.conversationHistory (timerKey "A" "C")).getD []).length = 2 := by
  decide

/-- Claim C5 (amended): invoking stop on an already-Stopped timer leaves
`total_elapsed` alone and recomputes `final_duration` to that same value, but
it is not a no-op: `end_time` is overwritten with the new timestamp and one
more snapshot is appended to the key's history list. -/
theorem c5_stop_on_stopped_effects (st : ServerState) (tm : Timer) (now : Int)
    (hstopped : tm.status = .stopped) :
    (stopTimer st tm now).2.total_elapsed = tm.total_elapsed ∧
    (stopTimer st tm now).2.final_duration = some tm.total_elapsed ∧
    (stopTimer st tm now).2.end_time = some now ∧
    mapGet (stopTimer st tm now).1.conversationHistory
        (timerKey tm.admin_id tm.conversation_id) =
      some ((mapGet st.conversationHistory
          (timerKey tm.admin_id tm.conversation_id)).getD []
        ++ [(stopTimer st tm now).2]) := by
  refine ⟨?_, ?_, ?_, ?_⟩
  · rw [stopTimer_snd]; simp [finalizeTimer, hstopped]
  · rw [stopTimer_snd]; simp [finalizeTimer, hstopped]
  · rw [stopTimer_snd]; simp [finalizeTimer, hstopped]
  · rw [stopTimer_history, stopTimer_snd]; exact mapGet_set_self _ _ _

/-- Witness for the amended C5 at the concrete double-stop. -/
theorem c5_stop_on_stopped_effects_witness :
    (stopTimer (startTimer initState "A" "C" "S" 0) (freshTimer "A" "C" "S" 0)
        100).2.status = .stopped ∧
    ((stopTimer
        (stopTimer (startTimer initState "A" "C" "S" 0) (freshTimer "A" "C" "S" 0)
          100).1
        (stopTimer (startTimer initState "A" "C" "S" 0) (freshTimer "A" "C" "S" 0)
          100).2 200).2.total_elapsed =
      (stopTimer (startTimer initState "A" "C" "S" 0) (freshTimer "A" "C" "S" 0)
          100).2.total_elapsed ∧
     (stopTimer
        (stopTimer (startTimer initState "A" "C" "S" 0) (freshTimer "A" "C" "S" 0)
          100).1
        (stopTimer (startTimer initState "A" "C" "S" 0) (freshTimer "A" "C" "S" 0)
          100).2 200).2.final_duration =
      some (stopTimer (startTimer initState "A" "C" "S" 0) (freshTimer "A" "C" "S" 0)
          100).2.total_elapsed ∧
     (stopTimer
        (stopTimer (startTimer initState "A" "C" "S" 0) (freshTimer "A" "C" "S" 0)
          100).1
        (stopTimer (startTimer initState "A" "C" "S" 0) (freshTimer "A" "C" "S" 0)
          100).2 200).2.end_time = some 200 ∧
     mapGet (stopTimer
        (stopTimer (startTimer initState "A" "C" "S" 0) (freshTimer "A" "C" "S" 0)
          100).1
        (stopTimer (startTimer initState "A" "C" "S" 0) (freshTimer "A" "C" "S" 0)
          100).2 200).1.conversationHistory
        (timerKey (stopTimer (startTimer initState "A" "C" "S" 0)
            (freshTimer "A" "C" "S" 0) 100).2.admin_id
          (stopTimer (startTimer initState "A" "C" "S" 0)
            (freshTimer "A" "C" "S" 0) 100).2.conversation_id) =
      some ((mapGet (stopTimer (startTimer initState "A" "C" "S" 0)
            (freshTimer "A" "C" "S" 0) 100).1.conversationHistory
          (timerKey (stopTimer (startTimer initState "A" "C" "S" 0)
              (freshTimer "A" "C" "S" 0) 100).2.admin_id
            (stopTimer (startTimer initState "A" "C" "S" 0)
              (freshTimer "A" "C" "S" 0) 100).2.conversation_id)).getD []
        ++ [(stopTimer
            (stopTimer (startTimer initState "A" "C" "S" 0)
              (freshTimer "A" "C" "S" 0) 100).1
            (stopTimer (startTimer initState "A" "C" "S" 0)
              (freshTimer "A" "C" "S" 0) 100).2 200).2])) :=
  ⟨by decide,
    c5_stop_on_stopped_effects
      (stopTimer (startTimer initState "A" "C" "S" 0) (freshTimer "A" "C" "S" 0)
        100).1
      (stopTimer (startTimer initState "A" "C" "S" 0) (freshTimer "A" "C" "S" 0)
        100).2 200 (by decide)⟩

/-- The durations the analytics endpoint actually aggregates: the
`final_duration` values of the operator's collected sessions that pass the
JavaScript-truthiness filter, in collection order (before sorting). -/
def truthyDurations (st : ServerState) (adminId : String) : List Int :=
  ((adminSessionsOf st adminId).filter (fun s => truthyDuration s.final_duration)).map
    (fun s => s.final_duration.getD 0)

theorem analytics_nonempty (st : ServerState) (adminId : String)
    (hAe : (adminSessionsOf st adminId).isEmpty = false) :
    analytics st adminId =
      { total_sessions := (List.insertionSort (· ≤ ·) (truthyDurations st adminId)).length
        total_time :=
          (List.insertionSort (· ≤ ·) (truthyDurations st adminId)).foldl (· + ·) 0
        average_time :=
          (((List.insertionSort (· ≤ ·) (truthyDurations st adminId)).foldl (· + ·) 0 :
            Int) : ℚ) /
            ((List.insertionSort (· ≤ ·) (truthyDurations st adminId)).length : ℚ)
        median_time :=
          if (List.insertionSort (· ≤ ·) (truthyDurations st adminId)).length > 0 then
            (List.insertionSort (· ≤ ·) (truthyDurations st adminId)).getD
              ((List.insertionSort (· ≤ ·) (truthyDurations st adminId)).length / 2) 0
          else 0 } := by
  simp [analytics, truthyDurations, hAe]

/-- Claim C6 (amended): `total_sessions` counts exactly the operator's
collected history records whose `final_duration` is truthy — defined and
non-zero; a record with `final_duration = 0` is excluded by the JavaScript
filter even though the field is defined.  When the operator has no history
records at all, the endpoint answers all four figures as zero rather than
failing. -/
theorem c6_analytics_counts_truthy_sessions (st : ServerState) (adminId : String) :
    (analytics st adminId).total_sessions =
      (adminSessionsOf st adminId).countP (fun s => truthyDuration s.final_duration) ∧
    ((adminSessionsOf st adminId).isEmpty = true →
      analytics st adminId =
        { total_sessions := 0, total_time := 0, average_time := 0, median_time := 0 }) := by
  constructor
  · cases hAe : (adminSessionsOf st adminId).isEmpty with
    | true =>
        have hnil : adminSessionsOf st adminId = [] := by
          simpa using hAe
        simp [analytics, hnil]
    | false =>
        rw [analytics_nonempty st adminId hAe]
        rw [List.countP_eq_length_filter]
        show (List.insertionSort (· ≤ ·) (truthyDurations st adminId)).length = _
        rw [(List.perm_insertionSort _ _).length_eq, truthyDurations, List.length_map]
  · intro hAe
    have hnil : adminSessionsOf st adminId = [] := by simpa using hAe
    simp [analytics, hnil]

/-- Witness for the amended C6: an operator with no history records gets all
zeros, and the session count equals the truthy count on a concrete store. -/
theorem c6_analytics_counts_truthy_sessions_witness :
    ((adminSessionsOf initState "op").isEmpty = true ∧
      analytics initState "op" =
        { total_sessions := 0, total_time := 0, average_time := 0, median_time := 0 }) ∧
    (analytics initState "op").total_sessions =
      (adminSessionsOf initState "op").countP (fun s => truthyDuration s.final_duration) :=
  ⟨⟨by decide, (c6_analytics_counts_truthy_sessions initState "op").2 (by decide)⟩,
    (c6_analytics_counts_truthy_sessions initState "op").1⟩

/-- A store holding exactly one stopped session, of duration 0 (started and
closed at the same millisecond), for operator `a`. -/
def zeroDurState : ServerState :=
  handleConversationClosed (startTimer initState "a" "c" "s1" 0) "c" 0

/-- Counterexample for C6: operator `a` has exactly one history record and
its `final_duration` is defined (`some 0`), yet `total_sessions` is 0 — the
code's filter tests truthiness, not definedness, so a defined duration of 0
is not counted. -/
theorem c6_counterexample_defined_zero_excluded :
    (adminSessionsOf zeroDurState "a").countP (fun s => s.final_duration.isSome) = 1 ∧
    (analytics zeroDurState "a").total_sessions = 0 := by decide

/-- Claim C7 (amended): on a non-empty collection of truthy (non-zero)
durations, analytics reports their sum as `total_time`, the exact quotient
sum / count as `average_time`, and as `median_time` the element at index
`floor(count / 2)` of the durations sorted ascending — the upper median for
even counts, never an average of the two middle elements.  (Sessions whose
`final_duration` is 0 are excluded from the count, the sum and the median by
the truthiness filter, which is what the counterexample forces.) -/
theorem c7_analytics_sum_mean_upper_median (st : ServerState) (adminId : String)
    (h : truthyDurations st adminId ≠ []) :
    (analytics st adminId).total_time = (truthyDurations st adminId).sum ∧
    (analytics st adminId).average_time =
      ((truthyDurations st adminId).sum : ℚ) /
        ((truthyDurations st adminId).length : ℚ) ∧
    (analytics st adminId).median_time =
      (List.insertionSort (· ≤ ·) (truthyDurations st adminId)).getD
        ((truthyDurations st adminId).length / 2) 0 ∧
    List.Sorted (· ≤ ·) (List.insertionSort (· ≤ ·) (truthyDurations st adminId)) ∧
    (List.insertionSort (· ≤ ·) (truthyDurations st adminId)).Perm
      (truthyDurations st adminId) := by
  have hA : adminSessionsOf st adminId ≠ [] := by
    intro he
    exact h (by simp [truthyDurations, he])
  have hAe : (adminSessionsOf st adminId).isEmpty = false := by
    cases he : (adminSessionsOf st adminId).isEmpty with
    | true => exact absurd (by simpa using he) hA
    | false => rfl
  have hperm := List.perm_insertionSort (· ≤ ·) (truthyDurations st adminId)
  have hlen := hperm.length_eq
  have hpos : 0 < (truthyDurations st adminId).length := List.length_pos.mpr h
  have hsum : (List.insertionSort (· ≤ ·) (truthyDurations st adminId)).foldl
      (· + ·) 0 = (truthyDurations st adminId).sum := by
    rw [← List.sum_eq_foldl]
    exact hperm.sum_eq
  rw [analytics_nonempty st adminId hAe]
  refine ⟨hsum, ?_, ?_, List.sorted_insertionSort _ _, hperm⟩
  · rw [hsum, hlen]
  · rw [if_pos (hlen ▸ hpos), hlen]

/-- A store with two stopped sessions for operator `a`, of durations 10000
and 30000 ms. -/
def twoSessionState : ServerState :=
  handleConversationClosed
    (startTimer (handleConversationClosed (startTimer initState "a" "c1" "s1" 0) "c1"
      10000) "a" "c2" "s2" 0) "c2" 30000

/-- Witness for the amended C7 at the spec's even-count example: durations
[10000, 30000] give the upper median 30000, not an averaged 20000. -/
theorem c7_analytics_sum_mean_upper_median_witness :
    truthyDurations twoSessionState "a" = [10000, 30000] ∧
    (analytics twoSessionState "a").median_time = 30000 ∧
    truthyDurations twoSessionState "a" ≠ [] ∧
    ((analytics twoSessionState "a").total_time =
        (truthyDurations twoSessionState "a").sum ∧
     (analytics twoSessionState "a").average_time =
        ((truthyDurations twoSessionState "a").sum : ℚ) /
          ((truthyDurations twoSessionState "a").length : ℚ) ∧
     (analytics twoSessionState "a").median_time =
        (List.insertionSort (· ≤ ·) (truthyDurations twoSessionState "a")).getD
          ((truthyDurations twoSessionState "a").length / 2) 0 ∧
     List.Sorted (· ≤ ·)
        (List.insertionSort (· ≤ ·) (truthyDurations twoSessionState "a")) ∧
     (List.insertionSort (· ≤ ·) (truthyDurations twoSessionState "a")).Perm
        (truthyDurations twoSessionState "a")) :=
  ⟨by decide, by decide, by decide,
    c7_analytics_sum_mean_upper_median twoSessionState "a" (by decide)⟩

/-- A store with three stopped sessions for operator `a`, of durations 0,
10000 and 30000 ms. -/
def threeSessionState : ServerState :=
  handleConversationClosed
    (startTimer (handleConversationClosed
      (startTimer (handleConversationClosed (startTimer initState "a" "c1" "s1" 0)
        "c1" 0) "a" "c2" "s2" 0) "c2" 10000)
      "a" "c3" "s3" 0) "c3" 30000

/-- Counterexample for C7: the operator's stopped sessions have durations
[0, 10000, 30000] (all defined), so the claim's median — the element at index
floor(3/2) = 1 of the sorted durations — is 10000; but the code filters out
the zero duration first and returns 30000. -/
theorem c7_counterexample_median_drops_zero_session :
    (adminSessionsOf threeSessionState "a").map (fun s => s.final_duration.getD 0) =
      [0, 10000, 30000] ∧
    (∀ s ∈ adminSessionsOf threeSessionState "a", s.final_duration.isSome = true) ∧
    (analytics threeSessionState "a").median_time = 30000 := by decide

/-- Claim C9: `stopTimer` pushes a spread copy of the timer object onto the
history array, so the stored snapshot is an independent value: it equals the
finalized timer at stop time, and any later in-place mutation of the live
object (any `f` applied through its address) leaves the history store —
including that snapshot — completely unchanged. -/
theorem c9_stop_snapshot_copy_on_write (st : RefState) (addr : Nat) (now : Int)
    (f : Timer → Timer) (t : Timer) (hget : mapGet st.heap addr = some t) :
    mapGet (stopTimerRef st addr now).conversationHistory
        (timerKey t.admin_id t.conversation_id) =
      some ((mapGet st.conversationHistory
          (timerKey t.admin_id t.conversation_id)).getD []
        ++ [finalizeTimer t now]) ∧
    (writeHeap (stopTimerRef st addr now) addr f).conversationHistory =
      (stopTimerRef st addr now).conversationHistory := by
  constructor
  · simp only [stopTimerRef, hget]
    exact mapGet_set_self _ _ _
  · cases hw : mapGet (stopTimerRef st addr now).heap addr with
    | none => simp [writeHeap, hw]
    | some u => simp [writeHeap, hw]

/-- A one-object reference store: the heap holds a running timer at address
0, referenced by the active map. -/
def refDemoState : RefState :=
  { heap := [(0, freshTimer "A" "C" "S" 0)]
    timers := [(timerKey "A" "C", 0)]
    conversationHistory := [] }

/-- Witness for C9: after stopping address 0 at `t=100`, overwriting the live
object's `total_elapsed` with 999 changes the heap but not the stored
snapshot. -/
theorem c9_stop_snapshot_copy_on_write_witness :
    mapGet refDemoState.heap 0 = some (freshTimer "A" "C" "S" 0) ∧
    (mapGet (writeHeap (stopTimerRef refDemoState 0 100) 0
        (fun tm => { tm with total_elapsed := 999 })).heap 0 ≠
      mapGet (stopTimerRef refDemoState 0 100).heap 0) ∧
    (mapGet (stopTimerRef refDemoState 0 100).conversationHistory
        (timerKey "A" "C") =
      some ((mapGet refDemoState.conversationHistory (timerKey "A" "C")).getD []
        ++ [finalizeTimer (freshTimer "A" "C" "S" 0) 100]) ∧
     (writeHeap (stopTimerRef refDemoState 0 100) 0
        (fun tm => { tm with total_elapsed := 999 })).conversationHistory =
      (stopTimerRef refDemoState 0 100).conversationHistory) :=
  ⟨by decide, by decide,
    c9_stop_snapshot_copy_on_write refDemoState 0 100
      (fun tm => { tm with total_elapsed := 999 }) (freshTimer "A" "C" "S" 0)
      (by decide)⟩

/-- Claim C10: the store key is the bare concatenation
`admin_id ++ "_" ++ conversation_id` and analytics selects keys by the bare
prefix `admin_id ++ "_"`, neither of which is injective once identifiers
contain underscores.  Concretely: (operator `a`, conversation `b_c`) and
(operator `a_b`, conversation `c`) share the key `a_b_c`, so after the first
pair starts a timer the second pair's start is absorbed as a no-op on the
same timer; and a stopped session belonging to operator `a_b` is counted by
analytics for the distinct operator `a`, breaking per-pair and per-operator
isolation. -/
theorem c10_underscore_key_collision :
    timerKey "a" "b_c" = timerKey "a_b" "c" ∧
    ("a" : String) ≠ "a_b" ∧ ("b_c" : String) ≠ "c" ∧
    strStartsWith (timerKey "a_b" "c") ("a" ++ "_") = true ∧
    startTimer (startTimer initState "a" "b_c" "s1" 0) "a_b" "c" "s2" 5 =
      startTimer initState "a" "b_c" "s1" 0 ∧
    (analytics (handleConversationClosed (startTimer initState "a_b" "c" "s1" 0)
        "c" 10) "a").total_sessions = 1 := by decide
